import Mathlib

/-!
Verification of the JiraIssueLogger actual-date inference core.

This file shallowly embeds the pure computational core of the repository:

* the status-history extraction and actual-date inference engine,
  `detect_actual_dates`, which exists in two near-identical copies in
  `jira_logger/core/jira/parser.py` and `jira_logger/core/jira/client.py`;
* the business-day duration calculator `calculate_duration` together with
  `parse_iso_date` from `jira_logger/utils/date_utils.py`.

Raw issue records are modelled by a `Json` value type; Python `None` is
`Json.null`, Python dictionaries are `Json.obj` association lists, and the
relevant parts of Python semantics (`dict.get` with a default, `for` loop
iteration, truthiness, `==`) are modelled explicitly.  Operations that can
raise a Python exception return `Except Unit`.
-/

/-- Model of the Python/JSON values flowing through the core.  Numbers are
modelled as integers; no claim depends on fractional JSON numbers. -/
inductive Json where
  | null : Json
  | bool : Bool → Json
  | num : Int → Json
  | str : String → Json
  | arr : List Json → Json
  | obj : List (String × Json) → Json

mutual

/-- Python `==` on the modelled values: structural comparison.  (The numeric
cross-type equalities of Python such as `True == 1` are not modelled; no value
compared by the core is both boolean and numeric.) -/
def Json.beq : Json → Json → Bool
  | Json.null, Json.null => true
  | Json.bool a, Json.bool b => a == b
  | Json.num a, Json.num b => a == b
  | Json.str a, Json.str b => a == b
  | Json.arr xs, Json.arr ys => Json.beqList xs ys
  | Json.obj fs, Json.obj gs => Json.beqFields fs gs
  | _, _ => false

/-- Elementwise `==` on lists of values. -/
def Json.beqList : List Json → List Json → Bool
  | [], [] => true
  | x :: xs, y :: ys => Json.beq x y && Json.beqList xs ys
  | _, _ => false

/-- Elementwise `==` on key-value binding lists. -/
def Json.beqFields : List (String × Json) → List (String × Json) → Bool
  | [], [] => true
  | (k, v) :: fs, (l, w) :: gs => k == l && Json.beq v w && Json.beqFields fs gs
  | _, _ => false

end

mutual

theorem Json.beq_iff : ∀ a b : Json, Json.beq a b = true ↔ a = b
  | Json.null, b => by cases b <;> simp [Json.beq]
  | Json.bool x, b => by cases b <;> simp [Json.beq]
  | Json.num x, b => by cases b <;> simp [Json.beq]
  | Json.str x, b => by cases b <;> simp [Json.beq]
  | Json.arr xs, b => by
      cases b <;> simp [Json.beq]
      exact Json.beqList_iff xs _
  | Json.obj fs, b => by
      cases b <;> simp [Json.beq]
      exact Json.beqFields_iff fs _

theorem Json.beqList_iff : ∀ xs ys : List Json, Json.beqList xs ys = true ↔ xs = ys
  | [], ys => by cases ys <;> simp [Json.beqList]
  | x :: xs, ys => by
      cases ys with
      | nil => simp [Json.beqList]
      | cons y ys => simp [Json.beqList, Json.beq_iff x y, Json.beqList_iff xs ys]

theorem Json.beqFields_iff :
    ∀ fs gs : List (String × Json), Json.beqFields fs gs = true ↔ fs = gs
  | [], gs => by cases gs <;> simp [Json.beqFields]
  | (k, v) :: fs, gs => by
      cases gs with
      | nil => simp [Json.beqFields]
      | cons g gs =>
        cases g with
        | mk l w =>
          simp [Json.beqFields, Json.beq_iff v w, Json.beqFields_iff fs gs, and_assoc]

end

instance : DecidableEq Json := fun a b => decidable_of_iff _ (Json.beq_iff a b)

theorem Json.beq_refl (a : Json) : Json.beq a a = true := (Json.beq_iff a a).mpr rfl

theorem Json.beq_eq_false_iff {a b : Json} : Json.beq a b = false ↔ a ≠ b := by
  have h := Json.beq_iff a b
  cases hb : Json.beq a b <;> simp [hb] at h ⊢ <;> simp [h]

/-- Python truthiness (`if not x`): `None`, `False`, `0`, `""`, `[]` and `{}`
are falsy, everything else is truthy. -/
def pyTruthy : Json → Bool
  | Json.null => false
  | Json.bool b => b
  | Json.num n => n != 0
  | Json.str s => s != ""
  | Json.arr xs => !xs.isEmpty
  | Json.obj fs => !fs.isEmpty

/-- Python `x.get(key, dflt)`: succeeds on a dictionary (first binding of the
key, or the default when the key is missing) and raises `AttributeError`
(modelled as `Except.error`) on any non-dictionary value. -/
def pyGetD (j : Json) (key : String) (dflt : Json) : Except Unit Json :=
  match j with
  | Json.obj fs =>
    match fs.lookup key with
    | some v => Except.ok v
    | none => Except.ok dflt
  | _ => Except.error ()

/-- Python `for x in j`: iterating a list yields its elements, a string its
characters, a dictionary its keys; any other value raises `TypeError`. -/
def pyIter (j : Json) : Except Unit (List Json) :=
  match j with
  | Json.arr xs => Except.ok xs
  | Json.str s => Except.ok (s.data.map (fun c => Json.str (String.mk [c])))
  | Json.obj fs => Except.ok (fs.map (fun p => Json.str p.1))
  | _ => Except.error ()

/-- One extracted status-change record, as built by `detect_actual_dates`:
`{"created": history.get("created"), "from": item.get("fromString"),
"to": item.get("toString")}`.  Each field is an arbitrary value from the raw
record (in particular it may be `Json.null`, Python `None`). -/
structure Change where
  created : Json
  fromStr : Json
  toStr : Json
deriving DecidableEq

instance : Inhabited Change := ⟨⟨Json.null, Json.null, Json.null⟩⟩

/-- Python `x in labels` for a list of string literals (`any` of `==`). -/
def jsonInStrList (j : Json) (labels : List String) : Bool :=
  labels.any (fun s => Json.beq j (Json.str s))

/-- The start/finish label configuration; the source keeps it in the
module-level dictionary `DEVELOPMENT_STATUSES` of each module. -/
structure StatusConfig where
  start : List String
  finish : List String

/-- The dictionary returned by `detect_actual_dates`:
`{"start": ..., "finish": ..., "start_method": ..., "finish_method": ...}`.
Each value is `Json.null` (Python `None`) or a value from the raw record /
a method-label string. -/
structure DetectResult where
  start : Json
  finish : Json
  start_method : Json
  finish_method : Json
deriving DecidableEq

namespace ParserPy

/-- `DEVELOPMENT_STATUSES` of `jira_logger/core/jira/parser.py` (lines 29-32). -/
def DEVELOPMENT_STATUSES : StatusConfig :=
  ⟨["In Progress", "Code review"], ["Deployed AC", "Ready for deployment"]⟩

/-- Inner loop of the status-change collection (parser.py lines 216-223):
for each `item` of a history entry, if `item.get("field") == "status"`,
append `{"created": history.get("created"), "from": item.get("fromString"),
"to": item.get("toString")}`. -/
def changesOfItems (history : Json) : List Json → Except Unit (List Change)
  | [] => Except.ok []
  | item :: rest => do
    let fieldV ← pyGetD item "field" Json.null
    if Json.beq fieldV (Json.str "status") then
      let c ← pyGetD history "created" Json.null
      let f ← pyGetD item "fromString" Json.null
      let t ← pyGetD item "toString" Json.null
      let tail ← changesOfItems history rest
      Except.ok (⟨c, f, t⟩ :: tail)
    else
      changesOfItems history rest

/-- Outer loop of the status-change collection (parser.py line 215):
`for history in ...: for item in history.get("items", []): ...`. -/
def changesOfHistories : List Json → Except Unit (List Change)
  | [] => Except.ok []
  | history :: rest => do
    let itemsJ ← pyGetD history "items" (Json.arr [])
    let items ← pyIter itemsJ
    let here ← changesOfItems history items
    let tail ← changesOfHistories rest
    Except.ok (here ++ tail)

/-- The whole `status_changes` collection of `detect_actual_dates`
(parser.py lines 213-223): iterate over
`jira_data.get("changelog", {}).get("histories", [])`. -/
def getStatusChanges (jira_data : Json) : Except Unit (List Change) := do
  let changelog ← pyGetD jira_data "changelog" (Json.obj [])
  let historiesJ ← pyGetD changelog "histories" (Json.arr [])
  let histories ← pyIter historiesJ
  changesOfHistories histories

/-- Start strategy 1 (parser.py lines 227-235): `created` of the first change
whose `to` is in `DEVELOPMENT_STATUSES["start"]`; `None` when no change
matches (and also when the `created` of the matching change is itself
`None`, since the generator then yields `None`). -/
def startStrategy1 (cfg : StatusConfig) (cs : List Change) : Json :=
  match cs.find? (fun c => jsonInStrList c.toStr cfg.start) with
  | some c => c.created
  | none => Json.null

/-- Start strategy 2 (parser.py lines 236-247), scanning forward: `created`
of the first change with `to == "In Progress"` preceded (strictly) by some
change with `to == "Ready for planning"`.  The boolean accumulator holds
`any(prev["to"] == "Ready for planning" for prev in status_changes[:i])`. -/
def startStrategy2Go (seen : Bool) : List Change → Json
  | [] => Json.null
  | c :: rest =>
    if Json.beq c.toStr (Json.str "In Progress") && seen then c.created
    else startStrategy2Go (seen || Json.beq c.toStr (Json.str "Ready for planning")) rest

/-- Start strategy 2 entry point: no planning entry precedes the first change. -/
def startStrategy2 (cs : List Change) : Json := startStrategy2Go false cs

/-- Start strategy 3 (parser.py line 249): `status_changes[0]["created"] if
status_changes else None`. -/
def startStrategy3 (cs : List Change) : Json :=
  match cs.head? with
  | some c => c.created
  | none => Json.null

/-- Finish strategy 1 (parser.py lines 254-262): `created` of the last change
(scanning `reversed(status_changes)`) whose `to` is in
`DEVELOPMENT_STATUSES["finish"]`. -/
def finishStrategy1 (cfg : StatusConfig) (cs : List Change) : Json :=
  match cs.reverse.find? (fun c => jsonInStrList c.toStr cfg.finish) with
  | some c => c.created
  | none => Json.null

/-- Finish strategy 2 (parser.py lines 263-271): `created` of the last change
with `to == "Deployed AC"`. -/
def finishStrategy2 (cs : List Change) : Json :=
  match cs.reverse.find? (fun c => Json.beq c.toStr (Json.str "Deployed AC")) with
  | some c => c.created
  | none => Json.null

/-- Finish strategy 3 (parser.py line 273): `status_changes[-1]["created"] if
status_changes else None`. -/
def finishStrategy3 (cs : List Change) : Json :=
  match cs.getLast? with
  | some c => c.created
  | none => Json.null

/-- `next((date for date in strategies if date is not None), None)`
(parser.py lines 277-278). -/
def firstNonNone : List Json → Json
  | [] => Json.null
  | Json.null :: rest => firstNonNone rest
  | j :: _ => j

/-- Strategy selection and method labelling of `detect_actual_dates`
(parser.py lines 226-295), applied to an already collected change list.
The labels are compared with `==` against the strategy slots, so `None`
compares equal to `None`. -/
def detectFromChanges (cfg : StatusConfig) (cs : List Change) : DetectResult :=
  let s1 := startStrategy1 cfg cs
  let s2 := startStrategy2 cs
  let s3 := startStrategy3 cs
  let f1 := finishStrategy1 cfg cs
  let f2 := finishStrategy2 cs
  let f3 := finishStrategy3 cs
  let start_date := firstNonNone [s1, s2, s3]
  let finish_date := firstNonNone [f1, f2, f3]
  let start_method :=
    if Json.beq start_date s1 then "First development status"
    else if Json.beq start_date s2 then "First \x27In Progress\x27 after planning"
    else "First status change"
  let finish_method :=
    if Json.beq finish_date f1 then "Last development finish status"
    else if Json.beq finish_date f2 then "Last \x27Deployed AC\x27 status"
    else "Last status change"
  ⟨start_date, finish_date, Json.str start_method, Json.str finish_method⟩

/-- `detect_actual_dates` of `jira_logger/core/jira/parser.py` (lines
195-308).  The source reads the module-level `DEVELOPMENT_STATUSES`
dictionary; it is passed here explicitly (`ParserPy.DEVELOPMENT_STATUSES` is
the value of the module).  A falsy argument short-circuits to the all-`None`
result; otherwise the status changes are collected (which can raise, see
`pyGetD`/`pyIter`) and the strategy cascade is applied. -/
def detect_actual_dates (cfg : StatusConfig) (jira_data : Json) :
    Except Unit DetectResult :=
  if pyTruthy jira_data then do
    let cs ← getStatusChanges jira_data
    Except.ok (detectFromChanges cfg cs)
  else
    Except.ok ⟨Json.null, Json.null, Json.null, Json.null⟩

end ParserPy

namespace ClientPy

/-- `DEVELOPMENT_STATUSES` of `jira_logger/core/jira/client.py` (lines 24-27). -/
def DEVELOPMENT_STATUSES : StatusConfig :=
  ⟨["In Progress", "Code review"], ["Deployed AC", "Ready for deployment"]⟩

/-- Inner loop of the status-change collection (client.py lines 136-143). -/
def changesOfItems (history : Json) : List Json → Except Unit (List Change)
  | [] => Except.ok []
  | item :: rest => do
    let fieldV ← pyGetD item "field" Json.null
    if Json.beq fieldV (Json.str "status") then
      let c ← pyGetD history "created" Json.null
      let f ← pyGetD item "fromString" Json.null
      let t ← pyGetD item "toString" Json.null
      let tail ← changesOfItems history rest
      Except.ok (⟨c, f, t⟩ :: tail)
    else
      changesOfItems history rest

/-- Outer loop of the status-change collection (client.py line 135). -/
def changesOfHistories : List Json → Except Unit (List Change)
  | [] => Except.ok []
  | history :: rest => do
    let itemsJ ← pyGetD history "items" (Json.arr [])
    let items ← pyIter itemsJ
    let here ← changesOfItems history items
    let tail ← changesOfHistories rest
    Except.ok (here ++ tail)

/-- The `status_changes` collection of client.py lines 133-143. -/
def getStatusChanges (data : Json) : Except Unit (List Change) := do
  let changelog ← pyGetD data "changelog" (Json.obj [])
  let historiesJ ← pyGetD changelog "histories" (Json.arr [])
  let histories ← pyIter historiesJ
  changesOfHistories histories

/-- Start strategy 1 (client.py lines 147-155). -/
def startStrategy1 (cfg : StatusConfig) (cs : List Change) : Json :=
  match cs.find? (fun c => jsonInStrList c.toStr cfg.start) with
  | some c => c.created
  | none => Json.null

/-- Start strategy 2 (client.py lines 156-167), scanning forward with the
accumulated "a planning entry was seen strictly earlier" flag. -/
def startStrategy2Go (seen : Bool) : List Change → Json
  | [] => Json.null
  | c :: rest =>
    if Json.beq c.toStr (Json.str "In Progress") && seen then c.created
    else startStrategy2Go (seen || Json.beq c.toStr (Json.str "Ready for planning")) rest

/-- Start strategy 2 entry point. -/
def startStrategy2 (cs : List Change) : Json := startStrategy2Go false cs

/-- Start strategy 3 (client.py line 169). -/
def startStrategy3 (cs : List Change) : Json :=
  match cs.head? with
  | some c => c.created
  | none => Json.null

/-- Finish strategy 1 (client.py lines 174-182). -/
def finishStrategy1 (cfg : StatusConfig) (cs : List Change) : Json :=
  match cs.reverse.find? (fun c => jsonInStrList c.toStr cfg.finish) with
  | some c => c.created
  | none => Json.null

/-- Finish strategy 2 (client.py lines 183-191). -/
def finishStrategy2 (cs : List Change) : Json :=
  match cs.reverse.find? (fun c => Json.beq c.toStr (Json.str "Deployed AC")) with
  | some c => c.created
  | none => Json.null

/-- Finish strategy 3 (client.py line 193). -/
def finishStrategy3 (cs : List Change) : Json :=
  match cs.getLast? with
  | some c => c.created
  | none => Json.null

/-- `next((date for date in strategies if date is not None), None)`
(client.py lines 197-198). -/
def firstNonNone : List Json → Json
  | [] => Json.null
  | Json.null :: rest => firstNonNone rest
  | j :: _ => j

/-- Strategy selection and method labelling (client.py lines 146-215). -/
def detectFromChanges (cfg : StatusConfig) (cs : List Change) : DetectResult :=
  let s1 := startStrategy1 cfg cs
  let s2 := startStrategy2 cs
  let s3 := startStrategy3 cs
  let f1 := finishStrategy1 cfg cs
  let f2 := finishStrategy2 cs
  let f3 := finishStrategy3 cs
  let start_date := firstNonNone [s1, s2, s3]
  let finish_date := firstNonNone [f1, f2, f3]
  let start_method :=
    if Json.beq start_date s1 then "First development status"
    else if Json.beq start_date s2 then "First \x27In Progress\x27 after planning"
    else "First status change"
  let finish_method :=
    if Json.beq finish_date f1 then "Last development finish status"
    else if Json.beq finish_date f2 then "Last \x27Deployed AC\x27 status"
    else "Last status change"
  ⟨start_date, finish_date, Json.str start_method, Json.str finish_method⟩

/-- `detect_actual_dates` of `jira_logger/core/jira/client.py` (lines
115-228), transcribed in the same way as `ParserPy.detect_actual_dates`
(the two Python functions are line-for-line identical up to the name of the
argument; the modules differ only in their `LOG_LEVEL`, which affects
printing, not the returned value). -/
def detect_actual_dates (cfg : StatusConfig) (data : Json) :
    Except Unit DetectResult :=
  if pyTruthy data then do
    let cs ← getStatusChanges data
    Except.ok (detectFromChanges cfg cs)
  else
    Except.ok ⟨Json.null, Json.null, Json.null, Json.null⟩

end ClientPy

/-! ## Model of Python `datetime` objects and ISO parsing

`datetime.datetime` values are modelled by their wall-clock position
(microseconds since 0001-01-01T00:00:00 of the proleptic Gregorian calendar,
which CPython also uses, via `toordinal`) plus an optional fixed UTC offset
(microseconds).  Python compares two naive datetimes by wall clock, two aware
datetimes by instant (wall minus offset), and raises `TypeError` on a
naive/aware comparison.  `timedelta(days=1)` adds one wall-clock day and
keeps the `tzinfo`; `weekday()` reads the wall-clock calendar (Monday = 0;
0001-01-01 is a Monday). -/

/-- Microseconds per day. -/
def usPerDay : Nat := 86400000000

/-- A Python `datetime.datetime` (second/microsecond precision). -/
structure PyDateTime where
  wall : Nat
  off : Option Int
deriving DecidableEq

/-- Gregorian leap-year test, as in CPython `datetime._is_leap`. -/
def isLeapYear (y : Nat) : Bool :=
  y % 4 == 0 && (y % 100 != 0 || y % 400 == 0)

/-- Days in a month (1-12), as in CPython `datetime._days_in_month`. -/
def daysInMonth (y m : Nat) : Nat :=
  if m = 2 then (if isLeapYear y then 29 else 28)
  else if m = 4 ∨ m = 6 ∨ m = 9 ∨ m = 11 then 30
  else 31

/-- Days before January 1 of year `y` (CPython `datetime._days_before_year`). -/
def daysBeforeYear (y : Nat) : Nat :=
  let p := y - 1
  365 * p + p / 4 - p / 100 + p / 400

/-- Days in year `y` before month `m` (CPython `datetime._days_before_month`). -/
def daysBeforeMonth (y m : Nat) : Nat :=
  (List.range (m - 1)).foldl (fun acc i => acc + daysInMonth y (i + 1)) 0

/-- Proleptic Gregorian ordinal of a date (0001-01-01 has ordinal 1), as in
CPython `datetime._ymd2ord`. -/
def ymdToOrdinal (y m d : Nat) : Nat :=
  daysBeforeYear y + daysBeforeMonth y m + d

/-- `weekday()` of a datetime with the given wall-clock position: day index
since 0001-01-01 (a Monday) modulo 7, so Monday = 0 … Sunday = 6. -/
def pyWeekday (wall : Nat) : Nat :=
  wall / usPerDay % 7

/-- Parse exactly `n` decimal digits, most significant first. -/
def parseNDigits : Nat → List Char → Nat → Option (Nat × List Char)
  | 0, cs, acc => some (acc, cs)
  | n + 1, c :: cs, acc =>
    if c.isDigit then parseNDigits n cs (acc * 10 + (c.toNat - 48)) else none
  | _ + 1, [], _ => none

/-- Consume one expected character. -/
def expectChar (c : Char) : List Char → Option (List Char)
  | d :: cs => if d = c then some cs else none
  | [] => none

/-- Parse a fractional-second part after the `.`/`,`: at least one digit;
the first six digits give the microseconds, further digits are ignored
(CPython 3.11 truncates them). -/
def parseFraction (cs : List Char) : Option (Nat × List Char) :=
  let digits := cs.takeWhile (fun c => c.isDigit)
  let rest := cs.dropWhile (fun c => c.isDigit)
  if digits.isEmpty then none
  else
    let sig := digits.take 6
    let v := sig.foldl (fun acc c => acc * 10 + (c.toNat - 48)) 0
    some (v * 10 ^ (6 - sig.length), rest)

/-- Parse `HH[:MM[:SS[.ffffff]]]` into microseconds since midnight, with
the CPython range checks (hour 0-23, minute/second 0-59; the fraction may also
follow a comma). -/
def parseTimeOfDay (cs : List Char) : Option (Nat × List Char) := do
  let (h, cs) ← parseNDigits 2 cs 0
  if 23 < h then none
  else
    match expectChar ':' cs with
    | none => some (h * 3600 * 1000000, cs)
    | some cs => do
      let (mi, cs) ← parseNDigits 2 cs 0
      if 59 < mi then none
      else
        match expectChar ':' cs with
        | none => some ((h * 3600 + mi * 60) * 1000000, cs)
        | some cs => do
          let (s, cs) ← parseNDigits 2 cs 0
          if 59 < s then none
          else
            match (expectChar '.' cs).orElse (fun _ => expectChar ',' cs) with
            | none => some ((h * 3600 + mi * 60 + s) * 1000000, cs)
            | some cs => do
              let (frac, cs) ← parseFraction cs
              some ((h * 3600 + mi * 60 + s) * 1000000 + frac, cs)

/-- Parse a UTC offset `+HH:MM[:SS]` / `-HH:MM[:SS]` into microseconds. -/
def parseOffset (cs : List Char) : Option (Int × List Char) := do
  match cs with
  | sign :: cs =>
    if sign = '+' ∨ sign = '-' then do
      let (h, cs) ← parseNDigits 2 cs 0
      let cs ← expectChar ':' cs
      let (mi, cs) ← parseNDigits 2 cs 0
      if 23 < h ∨ 59 < mi then none
      else
        let (s, cs) ←
          match expectChar ':' cs with
          | none => some ((0 : Nat), cs)
          | some cs => do
            let (s, cs) ← parseNDigits 2 cs 0
            if 59 < s then none else some (s, cs)
        let magnitude : Int := ((h * 3600 + mi * 60 + s) * 1000000 : Nat)
        some (if sign = '-' then -magnitude else magnitude, cs)
    else none
  | [] => none

/-- `datetime.datetime.fromisoformat`, restricted to the shapes the tracker
emits: `YYYY-MM-DD`, optionally followed by a single separator character and
`HH:MM[:SS[.ffffff]]`, optionally followed by an offset `±HH:MM[:SS]`.
Returns `none` (Python: raises `ValueError`, which every caller in the
repository catches into `None`) on any other input or out-of-range field. -/
def fromisoformat (s : String) : Option PyDateTime := do
  let cs := s.data
  let (y, cs) ← parseNDigits 4 cs 0
  let cs ← expectChar '-' cs
  let (m, cs) ← parseNDigits 2 cs 0
  let cs ← expectChar '-' cs
  let (d, cs) ← parseNDigits 2 cs 0
  if y < 1 ∨ m < 1 ∨ 12 < m ∨ d < 1 ∨ daysInMonth y m < d then none
  else
    let dayUs := (ymdToOrdinal y m d - 1) * usPerDay
    match cs with
    | [] => some ⟨dayUs, none⟩
    | _sep :: cs => do
      let (tod, cs) ← parseTimeOfDay cs
      match cs with
      | [] => some ⟨dayUs + tod, none⟩
      | _ => do
        let (off, cs) ← parseOffset cs
        match cs with
        | [] => some ⟨dayUs + tod, some off⟩
        | _ => none

/-- `s.replace("Z", "+00:00")` for the single-character pattern `"Z"`:
every occurrence of `Z` is replaced. -/
def replaceZ (s : String) : String :=
  String.mk (s.data.foldr
    (fun c acc =>
      if c = 'Z' then '+' :: '0' :: '0' :: ':' :: '0' :: '0' :: acc else c :: acc)
    [])

/-- Python falsiness of an optional string (`if not s`): `None` or `""`. -/
def pyStrFalsy : Option String → Bool
  | none => true
  | some s => s == ""

namespace DateUtils

/-- `parse_iso_date` of `jira_logger/utils/date_utils.py` (lines 12-29):
falsy input gives `None`, otherwise `fromisoformat` of the string with `Z`
replaced by `+00:00`; a `ValueError`/`TypeError` is caught into `None`. -/
def parse_iso_date (date_str : Option String) : Option PyDateTime :=
  match date_str with
  | none => none
  | some s => if s = "" then none else fromisoformat (replaceZ s)

/-- The day-stepping loop of `calculate_duration` (date_utils.py lines
70-82): starting from the full start timestamp, count the current position
if its weekday is Monday-Friday, then advance by `timedelta(days=1)`,
while `current <= end` holds.  `cur` is the wall clock of `current`; `endW`
is the wall clock bound such that `current <= end` iff `cur ≤ endW` (for
naive pairs this is the wall clock of `end`; for aware pairs it is corrected by
the two constant offsets; mixed pairs never get here). -/
def weekdayLoop (cur : Nat) (endW : Int) : Nat :=
  if (cur : Int) ≤ endW then
    (if pyWeekday cur < 5 then 1 else 0) + weekdayLoop (cur + usPerDay) endW
  else 0
termination_by (endW + (usPerDay : Int) - cur).toNat
decreasing_by
  simp [usPerDay] at *
  omega

/-- `calculate_duration` of `jira_logger/utils/date_utils.py` (lines 48-84):
`None` for falsy or unparsable inputs, otherwise the weekday count of the
day-stepping loop (the final `round(total_days, 2)` of the integer count is
the integer itself).  Comparing a naive `current` with an aware `end` (or
vice versa) raises `TypeError`, which this function does not catch —
modelled as `Except.error`. -/
def calculate_duration (start_date end_date : Option String) :
    Except Unit (Option Nat) :=
  if pyStrFalsy start_date || pyStrFalsy end_date then Except.ok none
  else
    match parse_iso_date start_date, parse_iso_date end_date with
    | some s, some e =>
      match s.off, e.off with
      | none, none => Except.ok (some (weekdayLoop s.wall (e.wall : Int)))
      | some o1, some o2 =>
        Except.ok (some (weekdayLoop s.wall ((e.wall : Int) + o1 - o2)))
      | _, _ => Except.error ()
    | _, _ => Except.ok none

end DateUtils

/-- `calculate_duration` of `jira_logger/core/jira/parser.py` (lines 50-84):
line-identical to the `date_utils` version except that the parsing and the
loop run inside `try … except (ValueError, TypeError): return None`, so the
naive/aware `TypeError` is caught into `None` instead of propagating. -/
def ParserPy.calculate_duration (start_date end_date : Option String) :
    Option Nat :=
  if pyStrFalsy start_date || pyStrFalsy end_date then none
  else
    match start_date, end_date with
    | some sd, some ed =>
      match fromisoformat (replaceZ sd), fromisoformat (replaceZ ed) with
      | some s, some e =>
        match s.off, e.off with
        | none, none => some (DateUtils.weekdayLoop s.wall (e.wall : Int))
        | some o1, some o2 =>
          some (DateUtils.weekdayLoop s.wall ((e.wall : Int) + o1 - o2))
        | _, _ => none
      | _, _ => none
    | _, _ => none

/-! ## Helper lemmas -/

theorem Json.beq_eq_true_of_eq {a b : Json} (h : a = b) : Json.beq a b = true :=
  (Json.beq_iff a b).mpr h

theorem Json.beq_eq_false_of_ne {a b : Json} (h : a ≠ b) : Json.beq a b = false :=
  Json.beq_eq_false_iff.mpr h

theorem ParserPy.firstNonNone_cons (j : Json) (rest : List Json) :
    ParserPy.firstNonNone (j :: rest) =
      if j = Json.null then ParserPy.firstNonNone rest else j := by
  cases j <;> simp [ParserPy.firstNonNone]

theorem ParserPy.detect_ok (cfg : StatusConfig) (data : Json) (cs : List Change)
    (htr : pyTruthy data = true)
    (hext : ParserPy.getStatusChanges data = Except.ok cs) :
    ParserPy.detect_actual_dates cfg data =
      Except.ok (ParserPy.detectFromChanges cfg cs) := by
  simp [ParserPy.detect_actual_dates, htr, hext]
  rfl

/-- `C1`.  Claim: for every input whose extracted status-change event
sequence is empty (including an issue with a changelog but no status items),
`detect_actual_dates` returns all four fields absent, and in general
`start_method` is present iff `start` is present.  The code violates this:
for the truthy input `{"changelog": {"histories": []}}` the extracted event
sequence is empty and `start`/`finish` are `None`, yet the `None == None`
comparison in the method selection makes `start_method` the string
"First development status" and `finish_method` the string
"Last development finish status".  (Only a falsy input reaches the explicit
all-`None` early return.) -/
theorem C1_empty_changelog_nonnull_method :
    ParserPy.getStatusChanges
        (Json.obj [("changelog", Json.obj [("histories", Json.arr [])])]) =
      Except.ok [] ∧
    ParserPy.detect_actual_dates ParserPy.DEVELOPMENT_STATUSES
        (Json.obj [("changelog", Json.obj [("histories", Json.arr [])])]) =
      Except.ok ⟨Json.null, Json.null, Json.str "First development status",
        Json.str "Last development finish status"⟩ :=
  ⟨rfl, rfl⟩

/-- `C6` counterexample.  The claim says the status-history extraction never
raises on any raw issue record.  On the record `{"changelog": null}` the
source evaluates `None.get("histories", [])`, which raises
`AttributeError`; the extraction (and hence `detect_actual_dates`) errors
instead of degrading to an empty event sequence. -/
theorem C6_counterexample :
    ParserPy.getStatusChanges (Json.obj [("changelog", Json.null)]) =
      Except.error () ∧
    ParserPy.detect_actual_dates ParserPy.DEVELOPMENT_STATUSES
        (Json.obj [("changelog", Json.null)]) = Except.error () :=
  ⟨rfl, rfl⟩

/-- `C10` counterexample.  The claim says a non-empty extracted event
sequence always yields present `start`/`finish`.  A history entry without a
`"created"` key produces an event whose timestamp is `None`; with a single
such event every strategy slot is `None`, so `start` and `finish` are absent
even though the extracted sequence is non-empty. -/
theorem C10_counterexample :
    ParserPy.getStatusChanges
        (Json.obj [("changelog", Json.obj [("histories", Json.arr [
          Json.obj [("items", Json.arr [
            Json.obj [("field", Json.str "status"),
              ("toString", Json.str "Review")]])]])])]) =
      Except.ok [⟨Json.null, Json.null, Json.str "Review"⟩] ∧
    ParserPy.detect_actual_dates ParserPy.DEVELOPMENT_STATUSES
        (Json.obj [("changelog", Json.obj [("histories", Json.arr [
          Json.obj [("items", Json.arr [
            Json.obj [("field", Json.str "status"),
              ("toString", Json.str "Review")]])]])])]) =
      Except.ok ⟨Json.null, Json.null, Json.str "First development status",
        Json.str "Last development finish status"⟩ :=
  ⟨rfl, rfl⟩

theorem ParserPy.startStrategy1_of_find {cfg : StatusConfig} {cs : List Change}
    {c0 : Change} (h : cs.find? (fun c => jsonInStrList c.toStr cfg.start) = some c0) :
    ParserPy.startStrategy1 cfg cs = c0.created := by
  simp [ParserPy.startStrategy1, h]

theorem ParserPy.startStrategy1_of_nomatch {cfg : StatusConfig} {cs : List Change}
    (h : ∀ c ∈ cs, jsonInStrList c.toStr cfg.start = false) :
    ParserPy.startStrategy1 cfg cs = Json.null := by
  have : cs.find? (fun c => jsonInStrList c.toStr cfg.start) = none :=
    List.find?_eq_none.mpr (by intro c hc; simp [h c hc])
  simp [ParserPy.startStrategy1, this]

theorem ParserPy.finishStrategy1_of_nomatch {cfg : StatusConfig} {cs : List Change}
    (h : ∀ c ∈ cs, jsonInStrList c.toStr cfg.finish = false) :
    ParserPy.finishStrategy1 cfg cs = Json.null := by
  have : cs.reverse.find? (fun c => jsonInStrList c.toStr cfg.finish) = none :=
    List.find?_eq_none.mpr (by intro c hc; simp [h c (List.mem_reverse.mp hc)])
  simp [ParserPy.finishStrategy1, this]

theorem ParserPy.finishStrategy2_of_nomatch {cs : List Change}
    (h : ∀ c ∈ cs, c.toStr ≠ Json.str "Deployed AC") :
    ParserPy.finishStrategy2 cs = Json.null := by
  have : cs.reverse.find? (fun c => Json.beq c.toStr (Json.str "Deployed AC")) = none :=
    List.find?_eq_none.mpr (by
      intro c hc
      simp [Json.beq_eq_false_of_ne (h c (List.mem_reverse.mp hc))])
  simp [ParserPy.finishStrategy2, this]

/-- The strategy-2 scan returns `None` when no change is an "In Progress"
entry with a strictly earlier "Ready for planning" entry (relative to the
accumulated flag `seen`). -/
theorem ParserPy.startStrategy2Go_eq_null :
    ∀ (cs : List Change) (seen : Bool),
      (∀ k, k < cs.length →
        ¬((cs.getD k default).toStr = Json.str "In Progress" ∧
          (seen = true ∨
            ∃ j, j < k ∧ (cs.getD j default).toStr = Json.str "Ready for planning"))) →
      ParserPy.startStrategy2Go seen cs = Json.null
  | [], _, _ => rfl
  | c :: rest, seen, h => by
    have h0 := h 0 (by simp)
    have hcond : (Json.beq c.toStr (Json.str "In Progress") && seen) = false := by
      cases hb : Json.beq c.toStr (Json.str "In Progress") with
      | false => simp
      | true =>
        cases seen with
        | false => simp
        | true =>
          exact absurd ⟨by simpa using (Json.beq_iff _ _).mp hb, Or.inl rfl⟩ h0
    have hrec := ParserPy.startStrategy2Go_eq_null rest
      (seen || Json.beq c.toStr (Json.str "Ready for planning"))
      (by
        intro k hk
        have hk1 := h (k + 1) (by simpa using Nat.succ_lt_succ hk)
        intro hand
        apply hk1
        refine ⟨by simpa using hand.1, ?_⟩
        rcases hand.2 with hseen2 | ⟨j, hj, hpl⟩
        · cases hs : seen with
          | true => exact Or.inl rfl
          | false =>
            refine Or.inr ⟨0, by omega, ?_⟩
            have : Json.beq c.toStr (Json.str "Ready for planning") = true := by
              simpa [hs] using hseen2
            simpa using (Json.beq_iff _ _).mp this
        · exact Or.inr ⟨j + 1, by omega, by simpa using hpl⟩)
    simp [ParserPy.startStrategy2Go, hcond, hrec]

/-- The strategy-2 scan returns the `created` of the change at the least
index `i` that is an "In Progress" entry with a strictly earlier
"Ready for planning" entry (relative to the accumulated flag `seen`). -/
theorem ParserPy.startStrategy2Go_eq_getD :
    ∀ (cs : List Change) (seen : Bool) (i : Nat), i < cs.length →
      (cs.getD i default).toStr = Json.str "In Progress" →
      (seen = true ∨
        ∃ j, j < i ∧ (cs.getD j default).toStr = Json.str "Ready for planning") →
      (∀ k, k < i →
        ¬((cs.getD k default).toStr = Json.str "In Progress" ∧
          (seen = true ∨
            ∃ j, j < k ∧ (cs.getD j default).toStr = Json.str "Ready for planning"))) →
      ParserPy.startStrategy2Go seen cs = (cs.getD i default).created
  | [], _, i, hi, _, _, _ => absurd hi (by simp)
  | c :: rest, seen, 0, _, hip, hseen, _ => by
    have hseen2 : seen = true := by
      rcases hseen with h | ⟨j, hj, _⟩
      · exact h
      · omega
    have hbeq : Json.beq c.toStr (Json.str "In Progress") = true :=
      (Json.beq_iff _ _).mpr (by simpa using hip)
    simp [ParserPy.startStrategy2Go, hbeq, hseen2]
  | c :: rest, seen, i + 1, hi, hip, hseen, hmin => by
    have h0 := hmin 0 (Nat.succ_pos i)
    have hcond : (Json.beq c.toStr (Json.str "In Progress") && seen) = false := by
      cases hb : Json.beq c.toStr (Json.str "In Progress") with
      | false => simp
      | true =>
        cases seen with
        | false => simp
        | true =>
          exact absurd ⟨by simpa using (Json.beq_iff _ _).mp hb, Or.inl rfl⟩ h0
    have hrec := ParserPy.startStrategy2Go_eq_getD rest
      (seen || Json.beq c.toStr (Json.str "Ready for planning")) i
      (by simpa using Nat.lt_of_succ_lt_succ hi)
      (by simpa using hip)
      (by
        rcases hseen with hs | ⟨j, hj, hpl⟩
        · exact Or.inl (by simp [hs])
        · cases j with
          | zero =>
            refine Or.inl ?_
            have : Json.beq c.toStr (Json.str "Ready for planning") = true :=
              (Json.beq_iff _ _).mpr (by simpa using hpl)
            simp [this]
          | succ j =>
            exact Or.inr ⟨j, by omega, by simpa using hpl⟩)
      (by
        intro k hk
        have hk1 := hmin (k + 1) (by omega)
        intro hand
        apply hk1
        refine ⟨by simpa using hand.1, ?_⟩
        rcases hand.2 with hseen2 | ⟨j, hj, hpl⟩
        · cases hs : seen with
          | true => exact Or.inl rfl
          | false =>
            refine Or.inr ⟨0, by omega, ?_⟩
            have : Json.beq c.toStr (Json.str "Ready for planning") = true := by
              simpa [hs] using hseen2
            simpa using (Json.beq_iff _ _).mp this
        · exact Or.inr ⟨j + 1, by omega, by simpa using hpl⟩)
    simp [ParserPy.startStrategy2Go, hcond]
    simpa using hrec

theorem ParserPy.startStrategy3_eq_head (cs : List Change) (hne : cs ≠ []) :
    ParserPy.startStrategy3 cs = (cs.head hne).created := by
  cases cs with
  | nil => exact absurd rfl hne
  | cons c rest => simp [ParserPy.startStrategy3]

theorem ParserPy.finishStrategy3_eq_getLast (cs : List Change) (hne : cs ≠ []) :
    ParserPy.finishStrategy3 cs = (cs.getLast hne).created := by
  simp [ParserPy.finishStrategy3, List.getLast?_eq_getLast cs hne]

/-- `C3`.  For every event sequence containing at least one event whose
`to_status` is in the configured start status set (here: the first such
event is `c0`, i.e. `find?` of the membership test returns `c0`), and whose
timestamp is an actual value (the spec requires `occurred_at` to be
present), `detect_actual_dates` returns `start` equal to the timestamp of `c0`
and `start_method` equal to "First development status", regardless of what
any later event would contribute to strategies 2 or 3. -/
theorem C3_first_development_status (cfg : StatusConfig) (data : Json)
    (cs : List Change) (c0 : Change)
    (htr : pyTruthy data = true)
    (hext : ParserPy.getStatusChanges data = Except.ok cs)
    (hfind : cs.find? (fun c => jsonInStrList c.toStr cfg.start) = some c0)
    (hnn : c0.created ≠ Json.null) :
    ∃ res, ParserPy.detect_actual_dates cfg data = Except.ok res ∧
      res.start = c0.created ∧
      res.start_method = Json.str "First development status" := by
  refine ⟨ParserPy.detectFromChanges cfg cs,
    ParserPy.detect_ok cfg data cs htr hext, ?_, ?_⟩
  all_goals
    have hs1 : ParserPy.startStrategy1 cfg cs = c0.created :=
      ParserPy.startStrategy1_of_find hfind
  all_goals
    have hfst : ParserPy.firstNonNone
        [c0.created, ParserPy.startStrategy2 cs, ParserPy.startStrategy3 cs] =
        c0.created := by
      rw [ParserPy.firstNonNone_cons, if_neg hnn]
  · simp [ParserPy.detectFromChanges, hs1, hfst]
  · simp [ParserPy.detectFromChanges, hs1, hfst, Json.beq_refl]

/-- Witness for `C3`: a concrete two-event record whose first event enters
"In Progress" (a start-set label) and whose second would match strategies 2
and 3. -/
theorem C3_witness :
    ∃ res, ParserPy.detect_actual_dates ParserPy.DEVELOPMENT_STATUSES
        (Json.obj [("changelog", Json.obj [("histories", Json.arr [
          Json.obj [("created", Json.str "2024-03-04T10:00:00Z"),
            ("items", Json.arr [Json.obj [("field", Json.str "status"),
              ("fromString", Json.str "Open"),
              ("toString", Json.str "In Progress")]])],
          Json.obj [("created", Json.str "2024-03-06T12:00:00Z"),
            ("items", Json.arr [Json.obj [("field", Json.str "status"),
              ("fromString", Json.str "In Progress"),
              ("toString", Json.str "Deployed AC")]])]])])]) =
      Except.ok res ∧
      res.start = Json.str "2024-03-04T10:00:00Z" ∧
      res.start_method = Json.str "First development status" :=
  C3_first_development_status ParserPy.DEVELOPMENT_STATUSES _
    [⟨Json.str "2024-03-04T10:00:00Z", Json.str "Open", Json.str "In Progress"⟩,
     ⟨Json.str "2024-03-06T12:00:00Z", Json.str "In Progress",
       Json.str "Deployed AC"⟩]
    ⟨Json.str "2024-03-04T10:00:00Z", Json.str "Open", Json.str "In Progress"⟩
    rfl rfl rfl (by simp)

/-- `C4`.  When no `to_status` of any event is in the configured start status
set, but the event at index `i` is the earliest one whose `to_status` is
exactly "In Progress" with a strictly earlier "Ready for planning" event,
`detect_actual_dates` returns `start` equal to the timestamp of that event
and `start_method` equal to the after-planning method label.  (The
timestamp is required to be an actual value, as the event data model
demands.) -/
theorem C4_in_progress_after_planning (cfg : StatusConfig) (data : Json)
    (cs : List Change) (i : Nat) (c0 : Change)
    (htr : pyTruthy data = true)
    (hext : ParserPy.getStatusChanges data = Except.ok cs)
    (hnostart : ∀ c ∈ cs, jsonInStrList c.toStr cfg.start = false)
    (hi : i < cs.length)
    (hc0 : cs.getD i default = c0)
    (hip : c0.toStr = Json.str "In Progress")
    (hplan : ∃ j, j < i ∧ (cs.getD j default).toStr = Json.str "Ready for planning")
    (hmin : ∀ k, k < i →
      ¬((cs.getD k default).toStr = Json.str "In Progress" ∧
        ∃ j, j < k ∧ (cs.getD j default).toStr = Json.str "Ready for planning"))
    (hnn : c0.created ≠ Json.null) :
    ∃ res, ParserPy.detect_actual_dates cfg data = Except.ok res ∧
      res.start = c0.created ∧
      res.start_method = Json.str "First \x27In Progress\x27 after planning" := by
  refine ⟨ParserPy.detectFromChanges cfg cs,
    ParserPy.detect_ok cfg data cs htr hext, ?_, ?_⟩
  all_goals
    have hs1 : ParserPy.startStrategy1 cfg cs = Json.null :=
      ParserPy.startStrategy1_of_nomatch hnostart
  all_goals
    have hs2 : ParserPy.startStrategy2 cs = c0.created := by
      rw [← hc0]
      apply ParserPy.startStrategy2Go_eq_getD cs false i hi
        (by rw [hc0]; exact hip) (Or.inr hplan)
      intro k hk hand
      apply hmin k hk
      refine ⟨hand.1, ?_⟩
      rcases hand.2 with hfalse | h
      · exact absurd hfalse (by simp)
      · exact h
  all_goals
    have hfst : ParserPy.firstNonNone
        [Json.null, c0.created, ParserPy.startStrategy3 cs] = c0.created := by
      rw [ParserPy.firstNonNone_cons, if_pos rfl, ParserPy.firstNonNone_cons,
        if_neg hnn]
  · simp [ParserPy.detectFromChanges, hs1, hs2, hfst]
  · simp [ParserPy.detectFromChanges, hs1, hs2, hfst,
      Json.beq_eq_false_of_ne hnn, Json.beq_refl]

/-- Witness for `C4`: the start set is configured as `["Code review"]`
(without "In Progress"), and the record transitions to "Ready for planning"
and then to "In Progress". -/
theorem C4_witness :
    ∃ res, ParserPy.detect_actual_dates ⟨["Code review"], ["Deployed AC"]⟩
        (Json.obj [("changelog", Json.obj [("histories", Json.arr [
          Json.obj [("created", Json.str "2024-03-01T09:00:00Z"),
            ("items", Json.arr [Json.obj [("field", Json.str "status"),
              ("fromString", Json.str "Open"),
              ("toString", Json.str "Ready for planning")]])],
          Json.obj [("created", Json.str "2024-03-04T10:00:00Z"),
            ("items", Json.arr [Json.obj [("field", Json.str "status"),
              ("fromString", Json.str "Ready for planning"),
              ("toString", Json.str "In Progress")]])]])])]) =
      Except.ok res ∧
      res.start = Json.str "2024-03-04T10:00:00Z" ∧
      res.start_method = Json.str "First \x27In Progress\x27 after planning" :=
  C4_in_progress_after_planning ⟨["Code review"], ["Deployed AC"]⟩ _
    [⟨Json.str "2024-03-01T09:00:00Z", Json.str "Open",
        Json.str "Ready for planning"⟩,
     ⟨Json.str "2024-03-04T10:00:00Z", Json.str "Ready for planning",
        Json.str "In Progress"⟩]
    1 ⟨Json.str "2024-03-04T10:00:00Z", Json.str "Ready for planning",
        Json.str "In Progress"⟩
    rfl rfl (by decide) (by decide) rfl rfl
    ⟨0, by decide, rfl⟩
    (by
      intro k hk
      have hk0 : k = 0 := by omega
      subst hk0
      simp)
    (by simp)

/-- `C5`.  For every non-empty event sequence in which no `to_status`
matches a configured start-set label, the planning-transition
pattern, a configured finish-set label, or "Deployed AC" (and whose
timestamps are actual values), `detect_actual_dates` falls back to the first
event for `start` (method "First status change") and to the last event for
`finish` (method "Last status change"). -/
theorem C5_fallback_first_last (cfg : StatusConfig) (data : Json)
    (cs : List Change)
    (htr : pyTruthy data = true)
    (hext : ParserPy.getStatusChanges data = Except.ok cs)
    (hne : cs ≠ [])
    (hnostart : ∀ c ∈ cs, jsonInStrList c.toStr cfg.start = false)
    (hnopattern : ∀ k, k < cs.length →
      ¬((cs.getD k default).toStr = Json.str "In Progress" ∧
        ∃ j, j < k ∧ (cs.getD j default).toStr = Json.str "Ready for planning"))
    (hnofinish : ∀ c ∈ cs, jsonInStrList c.toStr cfg.finish = false)
    (hnodep : ∀ c ∈ cs, c.toStr ≠ Json.str "Deployed AC")
    (hcreated : ∀ c ∈ cs, c.created ≠ Json.null) :
    ∃ res, ParserPy.detect_actual_dates cfg data = Except.ok res ∧
      res.start = (cs.head hne).created ∧
      res.start_method = Json.str "First status change" ∧
      res.finish = (cs.getLast hne).created ∧
      res.finish_method = Json.str "Last status change" := by
  have hs1 : ParserPy.startStrategy1 cfg cs = Json.null :=
    ParserPy.startStrategy1_of_nomatch hnostart
  have hs2 : ParserPy.startStrategy2 cs = Json.null := by
    apply ParserPy.startStrategy2Go_eq_null cs false
    intro k hk hand
    apply hnopattern k hk
    refine ⟨hand.1, ?_⟩
    rcases hand.2 with hfalse | h
    · exact absurd hfalse (by simp)
    · exact h
  have hs3 : ParserPy.startStrategy3 cs = (cs.head hne).created :=
    ParserPy.startStrategy3_eq_head cs hne
  have hf1 : ParserPy.finishStrategy1 cfg cs = Json.null :=
    ParserPy.finishStrategy1_of_nomatch hnofinish
  have hf2 : ParserPy.finishStrategy2 cs = Json.null :=
    ParserPy.finishStrategy2_of_nomatch hnodep
  have hf3 : ParserPy.finishStrategy3 cs = (cs.getLast hne).created :=
    ParserPy.finishStrategy3_eq_getLast cs hne
  have hnnh : (cs.head hne).created ≠ Json.null :=
    hcreated _ (List.head_mem hne)
  have hnnl : (cs.getLast hne).created ≠ Json.null :=
    hcreated _ (List.getLast_mem hne)
  have hfsts : ParserPy.firstNonNone
      [Json.null, Json.null, (cs.head hne).created] = (cs.head hne).created := by
    rw [ParserPy.firstNonNone_cons, if_pos rfl, ParserPy.firstNonNone_cons,
      if_pos rfl, ParserPy.firstNonNone_cons, if_neg hnnh]
  have hfstf : ParserPy.firstNonNone
      [Json.null, Json.null, (cs.getLast hne).created] =
      (cs.getLast hne).created := by
    rw [ParserPy.firstNonNone_cons, if_pos rfl, ParserPy.firstNonNone_cons,
      if_pos rfl, ParserPy.firstNonNone_cons, if_neg hnnl]
  refine ⟨ParserPy.detectFromChanges cfg cs,
    ParserPy.detect_ok cfg data cs htr hext, ?_, ?_, ?_, ?_⟩ <;>
    simp [ParserPy.detectFromChanges, hs1, hs2, hs3, hf1, hf2, hf3, hfsts, hfstf,
      Json.beq_eq_false_of_ne hnnh, Json.beq_eq_false_of_ne hnnl]

/-- Witness for `C5`: two events whose target statuses ("Analysis",
"Blocked") match none of the configured labels nor the special patterns. -/
theorem C5_witness :
    ∃ res, ParserPy.detect_actual_dates ParserPy.DEVELOPMENT_STATUSES
        (Json.obj [("changelog", Json.obj [("histories", Json.arr [
          Json.obj [("created", Json.str "2024-03-01T09:00:00Z"),
            ("items", Json.arr [Json.obj [("field", Json.str "status"),
              ("fromString", Json.str "Open"),
              ("toString", Json.str "Analysis")]])],
          Json.obj [("created", Json.str "2024-03-04T10:00:00Z"),
            ("items", Json.arr [Json.obj [("field", Json.str "status"),
              ("fromString", Json.str "Analysis"),
              ("toString", Json.str "Blocked")]])]])])]) =
      Except.ok res ∧
      res.start = Json.str "2024-03-01T09:00:00Z" ∧
      res.start_method = Json.str "First status change" ∧
      res.finish = Json.str "2024-03-04T10:00:00Z" ∧
      res.finish_method = Json.str "Last status change" :=
  C5_fallback_first_last ParserPy.DEVELOPMENT_STATUSES
    (Json.obj [("changelog", Json.obj [("histories", Json.arr [
      Json.obj [("created", Json.str "2024-03-01T09:00:00Z"),
        ("items", Json.arr [Json.obj [("field", Json.str "status"),
          ("fromString", Json.str "Open"),
          ("toString", Json.str "Analysis")]])],
      Json.obj [("created", Json.str "2024-03-04T10:00:00Z"),
        ("items", Json.arr [Json.obj [("field", Json.str "status"),
          ("fromString", Json.str "Analysis"),
          ("toString", Json.str "Blocked")]])]])])])
    [⟨Json.str "2024-03-01T09:00:00Z", Json.str "Open", Json.str "Analysis"⟩,
     ⟨Json.str "2024-03-04T10:00:00Z", Json.str "Analysis", Json.str "Blocked"⟩]
    rfl rfl (by decide) (by decide)
    (by
      intro k hk
      have hk2 : k < 2 := by simpa using hk
      have : k = 0 ∨ k = 1 := by omega
      rcases this with h | h <;> subst h <;> simp)
    (by decide) (by decide) (by decide)

theorem ParserPy.startStrategy1_null_or_mem (cfg : StatusConfig) (cs : List Change) :
    ParserPy.startStrategy1 cfg cs = Json.null ∨
      ∃ c ∈ cs, ParserPy.startStrategy1 cfg cs = c.created := by
  cases h : cs.find? (fun c => jsonInStrList c.toStr cfg.start) with
  | none => exact Or.inl (by simp [ParserPy.startStrategy1, h])
  | some c =>
    exact Or.inr ⟨c, List.mem_of_find?_eq_some h, by simp [ParserPy.startStrategy1, h]⟩

theorem ParserPy.startStrategy2Go_null_or_mem :
    ∀ (cs : List Change) (seen : Bool),
      ParserPy.startStrategy2Go seen cs = Json.null ∨
        ∃ c ∈ cs, ParserPy.startStrategy2Go seen cs = c.created
  | [], _ => Or.inl rfl
  | c :: rest, seen => by
    cases hcond : (Json.beq c.toStr (Json.str "In Progress") && seen) with
    | true =>
      exact Or.inr ⟨c, by simp, by simp [ParserPy.startStrategy2Go, hcond]⟩
    | false =>
      rcases ParserPy.startStrategy2Go_null_or_mem rest
          (seen || Json.beq c.toStr (Json.str "Ready for planning")) with h | ⟨d, hd, hh⟩
      · exact Or.inl (by simp [ParserPy.startStrategy2Go, hcond, h])
      · exact Or.inr ⟨d, by simp [hd], by simp [ParserPy.startStrategy2Go, hcond, hh]⟩

theorem ParserPy.finishStrategy1_null_or_mem (cfg : StatusConfig) (cs : List Change) :
    ParserPy.finishStrategy1 cfg cs = Json.null ∨
      ∃ c ∈ cs, ParserPy.finishStrategy1 cfg cs = c.created := by
  cases h : cs.reverse.find? (fun c => jsonInStrList c.toStr cfg.finish) with
  | none => exact Or.inl (by simp [ParserPy.finishStrategy1, h])
  | some c =>
    exact Or.inr ⟨c, List.mem_reverse.mp (List.mem_of_find?_eq_some h),
      by simp [ParserPy.finishStrategy1, h]⟩

theorem ParserPy.finishStrategy2_null_or_mem (cs : List Change) :
    ParserPy.finishStrategy2 cs = Json.null ∨
      ∃ c ∈ cs, ParserPy.finishStrategy2 cs = c.created := by
  cases h : cs.reverse.find? (fun c => Json.beq c.toStr (Json.str "Deployed AC")) with
  | none => exact Or.inl (by simp [ParserPy.finishStrategy2, h])
  | some c =>
    exact Or.inr ⟨c, List.mem_reverse.mp (List.mem_of_find?_eq_some h),
      by simp [ParserPy.finishStrategy2, h]⟩

theorem ParserPy.firstNonNone3_spec (a b c : Json) (hc : c ≠ Json.null) :
    ParserPy.firstNonNone [a, b, c] ≠ Json.null ∧
      (ParserPy.firstNonNone [a, b, c] = a ∨ ParserPy.firstNonNone [a, b, c] = b ∨
        ParserPy.firstNonNone [a, b, c] = c) := by
  by_cases ha : a = Json.null
  · subst ha
    by_cases hb : b = Json.null
    · subst hb
      rw [ParserPy.firstNonNone_cons, if_pos rfl, ParserPy.firstNonNone_cons,
        if_pos rfl, ParserPy.firstNonNone_cons, if_neg hc]
      exact ⟨hc, Or.inr (Or.inr rfl)⟩
    · rw [ParserPy.firstNonNone_cons, if_pos rfl, ParserPy.firstNonNone_cons,
        if_neg hb]
      exact ⟨hb, Or.inr (Or.inl rfl)⟩
  · rw [ParserPy.firstNonNone_cons, if_neg ha]
    exact ⟨ha, Or.inl rfl⟩

theorem ParserPy.detectFromChanges_start (cfg : StatusConfig) (cs : List Change) :
    (ParserPy.detectFromChanges cfg cs).start =
      ParserPy.firstNonNone [ParserPy.startStrategy1 cfg cs,
        ParserPy.startStrategy2 cs, ParserPy.startStrategy3 cs] := rfl

theorem ParserPy.detectFromChanges_finish (cfg : StatusConfig) (cs : List Change) :
    (ParserPy.detectFromChanges cfg cs).finish =
      ParserPy.firstNonNone [ParserPy.finishStrategy1 cfg cs,
        ParserPy.finishStrategy2 cs, ParserPy.finishStrategy3 cs] := rfl

/-- `C10` amended.  For every input whose extracted status-change event
sequence is non-empty and whose events all carry a non-`None` timestamp,
`detect_actual_dates` returns `start` and `finish` both present, and each
equals the `created` timestamp of some event of the extracted sequence
(guaranteed by the last-listed fallback strategies).  Without the timestamp
proviso the property fails, see the counterexample. -/
theorem C10_nonempty_present (cfg : StatusConfig) (data : Json)
    (cs : List Change)
    (htr : pyTruthy data = true)
    (hext : ParserPy.getStatusChanges data = Except.ok cs)
    (hne : cs ≠ [])
    (hcreated : ∀ c ∈ cs, c.created ≠ Json.null) :
    ∃ res, ParserPy.detect_actual_dates cfg data = Except.ok res ∧
      res.start ≠ Json.null ∧ res.finish ≠ Json.null ∧
      (∃ c ∈ cs, res.start = c.created) ∧
      (∃ c ∈ cs, res.finish = c.created) := by
  have hs3 : ParserPy.startStrategy3 cs = (cs.head hne).created :=
    ParserPy.startStrategy3_eq_head cs hne
  have hf3 : ParserPy.finishStrategy3 cs = (cs.getLast hne).created :=
    ParserPy.finishStrategy3_eq_getLast cs hne
  have hnnh : ParserPy.startStrategy3 cs ≠ Json.null := by
    rw [hs3]; exact hcreated _ (List.head_mem hne)
  have hnnl : ParserPy.finishStrategy3 cs ≠ Json.null := by
    rw [hf3]; exact hcreated _ (List.getLast_mem hne)
  obtain ⟨hsnn, hscases⟩ := ParserPy.firstNonNone3_spec
    (ParserPy.startStrategy1 cfg cs) (ParserPy.startStrategy2 cs)
    (ParserPy.startStrategy3 cs) hnnh
  obtain ⟨hfnn, hfcases⟩ := ParserPy.firstNonNone3_spec
    (ParserPy.finishStrategy1 cfg cs) (ParserPy.finishStrategy2 cs)
    (ParserPy.finishStrategy3 cs) hnnl
  refine ⟨ParserPy.detectFromChanges cfg cs,
    ParserPy.detect_ok cfg data cs htr hext,
    by rw [ParserPy.detectFromChanges_start]; exact hsnn,
    by rw [ParserPy.detectFromChanges_finish]; exact hfnn, ?_, ?_⟩
  · rw [ParserPy.detectFromChanges_start]
    rcases hscases with h | h | h
    · rcases ParserPy.startStrategy1_null_or_mem cfg cs with hnull | ⟨c, hc, hval⟩
      · rw [h] at hsnn; exact absurd hnull hsnn
      · exact ⟨c, hc, by rw [h, hval]⟩
    · rcases ParserPy.startStrategy2Go_null_or_mem cs false with hnull | ⟨c, hc, hval⟩
      · rw [h] at hsnn; exact absurd hnull hsnn
      · exact ⟨c, hc, by rw [h]; exact hval⟩
    · exact ⟨cs.head hne, List.head_mem hne, by rw [h, hs3]⟩
  · rw [ParserPy.detectFromChanges_finish]
    rcases hfcases with h | h | h
    · rcases ParserPy.finishStrategy1_null_or_mem cfg cs with hnull | ⟨c, hc, hval⟩
      · rw [h] at hfnn; exact absurd hnull hfnn
      · exact ⟨c, hc, by rw [h, hval]⟩
    · rcases ParserPy.finishStrategy2_null_or_mem cs with hnull | ⟨c, hc, hval⟩
      · rw [h] at hfnn; exact absurd hnull hfnn
      · exact ⟨c, hc, by rw [h, hval]⟩
    · exact ⟨cs.getLast hne, List.getLast_mem hne, by rw [h, hf3]⟩

/-- Witness for the amended `C10`: one event with a present timestamp. -/
theorem C10_witness :
    ∃ res, ParserPy.detect_actual_dates ParserPy.DEVELOPMENT_STATUSES
        (Json.obj [("changelog", Json.obj [("histories", Json.arr [
          Json.obj [("created", Json.str "2024-03-01T09:00:00Z"),
            ("items", Json.arr [Json.obj [("field", Json.str "status"),
              ("fromString", Json.str "Open"),
              ("toString", Json.str "Blocked")]])]])])]) =
      Except.ok res ∧
      res.start ≠ Json.null ∧ res.finish ≠ Json.null ∧
      (∃ c ∈ [(⟨Json.str "2024-03-01T09:00:00Z", Json.str "Open",
          Json.str "Blocked"⟩ : Change)], res.start = c.created) ∧
      (∃ c ∈ [(⟨Json.str "2024-03-01T09:00:00Z", Json.str "Open",
          Json.str "Blocked"⟩ : Change)], res.finish = c.created) :=
  C10_nonempty_present ParserPy.DEVELOPMENT_STATUSES
    (Json.obj [("changelog", Json.obj [("histories", Json.arr [
      Json.obj [("created", Json.str "2024-03-01T09:00:00Z"),
        ("items", Json.arr [Json.obj [("field", Json.str "status"),
          ("fromString", Json.str "Open"),
          ("toString", Json.str "Blocked")]])]])])])
    [⟨Json.str "2024-03-01T09:00:00Z", Json.str "Open", Json.str "Blocked"⟩]
    rfl rfl (by decide) (by decide)

theorem changesOfItems_client_eq_parserSide (history : Json) :
    ∀ items : List Json,
      ClientPy.changesOfItems history items = ParserPy.changesOfItems history items
  | [] => rfl
  | item :: rest => by
    simp [ClientPy.changesOfItems, ParserPy.changesOfItems,
      changesOfItems_client_eq_parserSide history rest]

theorem changesOfHistories_client_eq_parserSide :
    ∀ histories : List Json,
      ClientPy.changesOfHistories histories = ParserPy.changesOfHistories histories
  | [] => rfl
  | history :: rest => by
    simp [ClientPy.changesOfHistories, ParserPy.changesOfHistories,
      changesOfItems_client_eq_parserSide history,
      changesOfHistories_client_eq_parserSide rest]

theorem getStatusChanges_client_eq_parserSide (data : Json) :
    ClientPy.getStatusChanges data = ParserPy.getStatusChanges data := by
  simp [ClientPy.getStatusChanges, ParserPy.getStatusChanges,
    changesOfHistories_client_eq_parserSide]

theorem startStrategy2Go_client_eq_parserSide :
    ∀ (cs : List Change) (seen : Bool),
      ClientPy.startStrategy2Go seen cs = ParserPy.startStrategy2Go seen cs
  | [], _ => rfl
  | c :: rest, seen => by
    simp [ClientPy.startStrategy2Go, ParserPy.startStrategy2Go,
      startStrategy2Go_client_eq_parserSide rest]

theorem firstNonNone_client_eq_parserSide :
    ∀ js : List Json, ClientPy.firstNonNone js = ParserPy.firstNonNone js
  | [] => rfl
  | j :: rest => by
    cases j <;> simp [ClientPy.firstNonNone, ParserPy.firstNonNone,
      firstNonNone_client_eq_parserSide rest]

theorem detectFromChanges_client_eq_parserSide (cfg : StatusConfig) (cs : List Change) :
    ClientPy.detectFromChanges cfg cs = ParserPy.detectFromChanges cfg cs := by
  simp only [ClientPy.detectFromChanges, ParserPy.detectFromChanges,
    ClientPy.startStrategy1, ParserPy.startStrategy1,
    ClientPy.startStrategy2, ParserPy.startStrategy2,
    startStrategy2Go_client_eq_parserSide,
    ClientPy.startStrategy3, ParserPy.startStrategy3,
    ClientPy.finishStrategy1, ParserPy.finishStrategy1,
    ClientPy.finishStrategy2, ParserPy.finishStrategy2,
    ClientPy.finishStrategy3, ParserPy.finishStrategy3,
    firstNonNone_client_eq_parserSide]

/-- `C9`.  The two duplicated implementations of the inference engine —
`detect_actual_dates` in the parser module and in the client module — use
equal `DEVELOPMENT_STATUSES` configurations and return identical results
(same `start`, `finish`, `start_method`, `finish_method`, and the same
raising behavior) on every input issue record. -/
theorem C9_parser_client_equivalent :
    ParserPy.DEVELOPMENT_STATUSES = ClientPy.DEVELOPMENT_STATUSES ∧
    ∀ data : Json,
      ParserPy.detect_actual_dates ParserPy.DEVELOPMENT_STATUSES data =
        ClientPy.detect_actual_dates ClientPy.DEVELOPMENT_STATUSES data := by
  refine ⟨rfl, fun data => ?_⟩
  simp only [ParserPy.detect_actual_dates, ClientPy.detect_actual_dates,
    getStatusChanges_client_eq_parserSide, detectFromChanges_client_eq_parserSide]
  rfl

/-- Builder for a well-shaped raw issue record: a `changelog.histories`
array whose entries are objects with a `created` value and an `items` array
of objects with `field`/`fromString`/`toString` values. -/
def mkIssue (histories : List (Json × List (Json × Json × Json))) : Json :=
  Json.obj [("changelog", Json.obj [("histories", Json.arr (histories.map
    (fun h => Json.obj [("created", h.1), ("items", Json.arr (h.2.map
      (fun it => Json.obj [("field", it.1), ("fromString", it.2.1),
        ("toString", it.2.2)])))])))])]

/-- Spec-side description of the extraction result on a well-shaped record:
exactly the (timestamp, fromString, toString) triples of the items whose
field equals "status", scanning every item of every history entry, in
source order. -/
def specStatusTriples : List (Json × List (Json × Json × Json)) → List Change
  | [] => []
  | h :: rest =>
    (h.2.filter (fun it => Json.beq it.1 (Json.str "status"))).map
      (fun it => ⟨h.1, it.2.1, it.2.2⟩) ++ specStatusTriples rest

theorem exceptOkBind {ε α β : Type} (a : α) (f : α → Except ε β) :
    ((Except.ok a : Except ε α) >>= f) = f a := rfl

theorem ParserPy.changesOfItems_mk (hist : Json) (cval : Json)
    (hc : pyGetD hist "created" Json.null = Except.ok cval) :
    ∀ items : List (Json × Json × Json),
      ParserPy.changesOfItems hist (items.map
        (fun it => Json.obj [("field", it.1), ("fromString", it.2.1),
          ("toString", it.2.2)])) =
      Except.ok ((items.filter (fun it => Json.beq it.1 (Json.str "status"))).map
        (fun it => ⟨cval, it.2.1, it.2.2⟩))
  | [] => rfl
  | it :: rest => by
    have hfield : pyGetD (Json.obj [("field", it.1), ("fromString", it.2.1),
        ("toString", it.2.2)]) "field" Json.null = Except.ok it.1 := rfl
    have hfrom : pyGetD (Json.obj [("field", it.1), ("fromString", it.2.1),
        ("toString", it.2.2)]) "fromString" Json.null = Except.ok it.2.1 := rfl
    have hto : pyGetD (Json.obj [("field", it.1), ("fromString", it.2.1),
        ("toString", it.2.2)]) "toString" Json.null = Except.ok it.2.2 := rfl
    cases hb : Json.beq it.1 (Json.str "status") with
    | true =>
      simp [ParserPy.changesOfItems, exceptOkBind, hfield, hfrom, hto, hb, hc,
        ParserPy.changesOfItems_mk hist cval hc rest, List.filter_cons]
    | false =>
      simp [ParserPy.changesOfItems, exceptOkBind, hfield, hb,
        ParserPy.changesOfItems_mk hist cval hc rest, List.filter_cons]

theorem ParserPy.changesOfHistories_mk :
    ∀ histories : List (Json × List (Json × Json × Json)),
      ParserPy.changesOfHistories (histories.map
        (fun h => Json.obj [("created", h.1), ("items", Json.arr (h.2.map
          (fun it => Json.obj [("field", it.1), ("fromString", it.2.1),
            ("toString", it.2.2)])))])) =
      Except.ok (specStatusTriples histories)
  | [] => rfl
  | h :: rest => by
    have hc : pyGetD (Json.obj [("created", h.1), ("items", Json.arr (h.2.map
        (fun it => Json.obj [("field", it.1), ("fromString", it.2.1),
          ("toString", it.2.2)])))]) "created" Json.null = Except.ok h.1 := by
      simp [pyGetD]
    have hitems : pyGetD (Json.obj [("created", h.1), ("items", Json.arr (h.2.map
        (fun it => Json.obj [("field", it.1), ("fromString", it.2.1),
          ("toString", it.2.2)])))]) "items" (Json.arr []) =
        Except.ok (Json.arr (h.2.map (fun it => Json.obj [("field", it.1),
          ("fromString", it.2.1), ("toString", it.2.2)]))) := rfl
    simp [ParserPy.changesOfHistories, exceptOkBind, hitems, pyIter,
      ParserPy.changesOfItems_mk _ _ hc h.2,
      ParserPy.changesOfHistories_mk rest, specStatusTriples]

/-- `C6` amended.  The status-history extraction degrades to an empty event
sequence when the `changelog` key or the `histories` key is missing, and on
a well-shaped record it produces exactly the (timestamp, fromString,
toString) triples of the items whose field equals "status", in source
order.  (As the counterexample shows, the original "never raises" part is
false: a non-dictionary value where the code calls `.get` — e.g.
`"changelog": null` — raises instead of degrading.) -/
theorem C6_extraction_behavior :
    (∀ fields : List (String × Json), fields.lookup "changelog" = none →
      ParserPy.getStatusChanges (Json.obj fields) = Except.ok []) ∧
    (∀ (fields cfields : List (String × Json)),
      fields.lookup "changelog" = some (Json.obj cfields) →
      cfields.lookup "histories" = none →
      ParserPy.getStatusChanges (Json.obj fields) = Except.ok []) ∧
    (∀ histories, ParserPy.getStatusChanges (mkIssue histories) =
      Except.ok (specStatusTriples histories)) := by
  refine ⟨?_, ?_, ?_⟩
  · intro fields h
    simp [ParserPy.getStatusChanges, exceptOkBind, pyGetD, pyIter, h,
      ParserPy.changesOfHistories]
  · intro fields cfields h1 h2
    simp [ParserPy.getStatusChanges, exceptOkBind, pyGetD, pyIter, h1, h2,
      ParserPy.changesOfHistories]
  · intro histories
    simp [ParserPy.getStatusChanges, mkIssue, exceptOkBind, pyGetD, pyIter,
      ParserPy.changesOfHistories_mk histories]

/-- Witness for the amended `C6`: a record without a `changelog` key
degrades to no events; a well-shaped record with one status item and one
non-status item yields exactly the status triple. -/
theorem C6_witness :
    ParserPy.getStatusChanges (Json.obj [("key", Json.str "EI-1")]) =
      Except.ok [] ∧
    ParserPy.getStatusChanges (mkIssue [(Json.str "2024-03-01T09:00:00Z",
        [(Json.str "status", Json.str "Open", Json.str "In Progress"),
         (Json.str "assignee", Json.str "a", Json.str "b")])]) =
      Except.ok [⟨Json.str "2024-03-01T09:00:00Z", Json.str "Open",
        Json.str "In Progress"⟩] :=
  ⟨C6_extraction_behavior.1 [("key", Json.str "EI-1")] rfl,
   C6_extraction_behavior.2.2 [(Json.str "2024-03-01T09:00:00Z",
     [(Json.str "status", Json.str "Open", Json.str "In Progress"),
      (Json.str "assignee", Json.str "a", Json.str "b")])]⟩

theorem DateUtils.weekdayLoop_step {cur : Nat} {endW : Int}
    (h : (cur : Int) ≤ endW) :
    DateUtils.weekdayLoop cur endW =
      (if pyWeekday cur < 5 then 1 else 0) +
        DateUtils.weekdayLoop (cur + usPerDay) endW := by
  rw [DateUtils.weekdayLoop]
  simp [h]

theorem DateUtils.weekdayLoop_stop {cur : Nat} {endW : Int}
    (h : ¬((cur : Int) ≤ endW)) :
    DateUtils.weekdayLoop cur endW = 0 := by
  rw [DateUtils.weekdayLoop]
  simp [h]

/-- A successfully parsed optional string is non-falsy. -/
theorem DateUtils.parse_iso_date_ne_falsy {s : String} {d : PyDateTime}
    (h : DateUtils.parse_iso_date (some s) = some d) : pyStrFalsy (some s) = false := by
  by_cases hs : s = ""
  · rw [DateUtils.parse_iso_date] at h
    simp [hs] at h
  · simp [pyStrFalsy, hs]

/-- Python `<` on two `datetime` objects: wall clock for naive pairs,
instant (wall minus offset) for aware pairs, `TypeError` for mixed pairs. -/
def pyLt (a b : PyDateTime) : Except Unit Bool :=
  match a.off, b.off with
  | none, none => Except.ok (decide ((a.wall : Int) < (b.wall : Int)))
  | some o1, some o2 =>
    Except.ok (decide ((a.wall : Int) - o1 < (b.wall : Int) - o2))
  | _, _ => Except.error ()

/-- `C7`.  For every pair of parsable timestamps whose end is strictly
earlier than the start (in the Python datetime order, which also rules out the
naive/aware `TypeError`), `calculate_duration` returns `0.00`: the loop
condition fails immediately, so no day is counted, no error is raised and
no negative number is produced. -/
theorem C7_reversed_inputs_zero (sd ed : String) (S E : PyDateTime)
    (hps : DateUtils.parse_iso_date (some sd) = some S)
    (hpe : DateUtils.parse_iso_date (some ed) = some E)
    (hlt : pyLt E S = Except.ok true) :
    DateUtils.calculate_duration (some sd) (some ed) = Except.ok (some 0) := by
  rw [DateUtils.calculate_duration, DateUtils.parse_iso_date_ne_falsy hps,
    DateUtils.parse_iso_date_ne_falsy hpe]
  simp only [Bool.or_self, Bool.false_eq_true, if_false, hps, hpe]
  cases hS : S.off with
  | none =>
    cases hE : E.off with
    | none =>
      rw [pyLt, hE, hS] at hlt
      simp only [Except.ok.injEq, decide_eq_true_eq] at hlt
      show Except.ok (some (DateUtils.weekdayLoop S.wall (E.wall : Int))) =
        Except.ok (some 0)
      rw [DateUtils.weekdayLoop_stop (by omega)]
    | some o2 =>
      rw [pyLt, hE, hS] at hlt
      exact absurd hlt (by simp)
  | some o1 =>
    cases hE : E.off with
    | none =>
      rw [pyLt, hE, hS] at hlt
      exact absurd hlt (by simp)
    | some o2 =>
      rw [pyLt, hE, hS] at hlt
      simp only [Except.ok.injEq, decide_eq_true_eq] at hlt
      show Except.ok
          (some (DateUtils.weekdayLoop S.wall ((E.wall : Int) + o1 - o2))) =
        Except.ok (some 0)
      rw [DateUtils.weekdayLoop_stop (by omega)]

/-- Witness for `C7`: `end` two days before `start`. -/
theorem C7_witness :
    DateUtils.calculate_duration (some "2024-03-06") (some "2024-03-04") =
      Except.ok (some 0) :=
  C7_reversed_inputs_zero "2024-03-06" "2024-03-04"
    ⟨738950 * 86400000000, none⟩ ⟨738948 * 86400000000, none⟩
    rfl rfl rfl

/-- `C8`.  For every parsable timestamp `x`, `calculate_duration(x, x)` is
`1.00` when `x` falls on a weekday (Python weekday 0-4, Monday-Friday) and
`0.00` when it falls on a Saturday or Sunday (weekday 5-6): the loop runs
exactly once and counts the single day iff it is a weekday. -/
theorem C8_duration_idempotence (x : String) (S : PyDateTime)
    (hp : DateUtils.parse_iso_date (some x) = some S) :
    DateUtils.calculate_duration (some x) (some x) =
      Except.ok (some (if pyWeekday S.wall < 5 then 1 else 0)) := by
  rw [DateUtils.calculate_duration, DateUtils.parse_iso_date_ne_falsy hp]
  simp only [Bool.or_self, Bool.false_eq_true, if_false, hp]
  cases hS : S.off with
  | none =>
    show Except.ok (some (DateUtils.weekdayLoop S.wall (S.wall : Int))) = _
    rw [DateUtils.weekdayLoop_step (by omega),
      DateUtils.weekdayLoop_stop (by simp only [usPerDay]; push_cast; omega)]
    simp
  | some o =>
    show Except.ok
        (some (DateUtils.weekdayLoop S.wall ((S.wall : Int) + o - o))) = _
    have ho : (S.wall : Int) + o - o = (S.wall : Int) := by ring
    rw [ho, DateUtils.weekdayLoop_step (by omega),
      DateUtils.weekdayLoop_stop (by simp only [usPerDay]; push_cast; omega)]
    simp

/-- Witness for `C8`: 2024-03-06 is a Wednesday, so the self-duration is 1. -/
theorem C8_witness :
    DateUtils.calculate_duration (some "2024-03-06") (some "2024-03-06") =
      Except.ok (some 1) := by
  rw [C8_duration_idempotence "2024-03-06" ⟨738950 * 86400000000, none⟩ rfl]
  norm_num [pyWeekday, usPerDay]

/-- `C2` counterexample.  The claim says the weekday count runs over the
calendar dates of start and end inclusive, so that a Monday-to-Wednesday
pair gives `3.00` regardless of the time-of-day components.  But the loop
compares full timestamps: for start Monday 23:00 and end Wednesday 01:00
(2024-03-04 is a Monday, weekday 0; 2024-03-06 a Wednesday, weekday 2) the
third iteration falls on Wednesday 23:00, after the end, so the result is
`2.00`, not `3.00`. -/
theorem C2_counterexample :
    DateUtils.parse_iso_date (some "2024-03-04T23:00:00") =
      some ⟨63845190000000000, none⟩ ∧
    DateUtils.parse_iso_date (some "2024-03-06T01:00:00") =
      some ⟨63845283600000000, none⟩ ∧
    pyWeekday 63845190000000000 = 0 ∧
    pyWeekday 63845283600000000 = 2 ∧
    DateUtils.calculate_duration (some "2024-03-04T23:00:00")
      (some "2024-03-06T01:00:00") = Except.ok (some 2) := by
  refine ⟨rfl, rfl, by norm_num [pyWeekday, usPerDay],
    by norm_num [pyWeekday, usPerDay], ?_⟩
  rw [DateUtils.calculate_duration]
  rw [show pyStrFalsy (some "2024-03-04T23:00:00") = false from rfl,
    show pyStrFalsy (some "2024-03-06T01:00:00") = false from rfl]
  simp only [Bool.or_self, Bool.false_eq_true, if_false,
    show DateUtils.parse_iso_date (some "2024-03-04T23:00:00") =
      some ⟨63845190000000000, none⟩ from rfl,
    show DateUtils.parse_iso_date (some "2024-03-06T01:00:00") =
      some ⟨63845283600000000, none⟩ from rfl]
  show Except.ok
      (some (DateUtils.weekdayLoop 63845190000000000
        ((63845283600000000 : Nat) : Int))) = Except.ok (some 2)
  rw [DateUtils.weekdayLoop_step (by norm_num),
    DateUtils.weekdayLoop_step (by norm_num [usPerDay]),
    DateUtils.weekdayLoop_stop (by norm_num [usPerDay])]
  norm_num [pyWeekday, usPerDay]

/-- `C2` amended.  For parsable naive timestamps, the calculator iterates in
whole-day steps from the full start timestamp while `current <= end`, so the
end calendar day is counted only when it is reached — i.e. when the
time-of-day of the start is not later than that of the end.  For a Monday start and the
Wednesday of the same week as end, with start time-of-day ≤ end time-of-day
(as in the same-time scenario of the spec), the duration is `3.00` (Monday,
Tuesday, Wednesday). -/
theorem C2_duration_day_iteration (sd ed : String) (S E : PyDateTime)
    (hps : DateUtils.parse_iso_date (some sd) = some S)
    (hpe : DateUtils.parse_iso_date (some ed) = some E)
    (hSoff : S.off = none) (hEoff : E.off = none)
    (hmon : S.wall / usPerDay % 7 = 0)
    (hday : E.wall / usPerDay = S.wall / usPerDay + 2)
    (htod : S.wall % usPerDay ≤ E.wall % usPerDay) :
    DateUtils.calculate_duration (some sd) (some ed) = Except.ok (some 3) := by
  simp only [usPerDay] at hmon hday htod
  rw [DateUtils.calculate_duration, DateUtils.parse_iso_date_ne_falsy hps,
    DateUtils.parse_iso_date_ne_falsy hpe]
  simp only [Bool.or_self, Bool.false_eq_true, if_false, hps, hpe, hSoff, hEoff]
  show Except.ok (some (DateUtils.weekdayLoop S.wall (E.wall : Int))) =
    Except.ok (some 3)
  rw [DateUtils.weekdayLoop_step
      (by omega),
    DateUtils.weekdayLoop_step
      (by simp only [usPerDay]; push_cast; omega),
    DateUtils.weekdayLoop_step
      (by simp only [usPerDay]; push_cast; omega),
    DateUtils.weekdayLoop_stop
      (by simp only [usPerDay]; push_cast; omega)]
  have w1 : pyWeekday S.wall < 5 := by
    simp only [pyWeekday, usPerDay]
    omega
  have w2 : pyWeekday (S.wall + usPerDay) < 5 := by
    simp only [pyWeekday, usPerDay]
    omega
  have w3 : pyWeekday (S.wall + usPerDay + usPerDay) < 5 := by
    simp only [pyWeekday, usPerDay]
    omega
  simp [w1, w2, w3]

/-- Witness for the amended `C2`: Monday 2024-03-04 10:00 to Wednesday
2024-03-06 12:00 gives three business days. -/
theorem C2_witness :
    DateUtils.calculate_duration (some "2024-03-04T10:00:00")
      (some "2024-03-06T12:00:00") = Except.ok (some 3) :=
  C2_duration_day_iteration "2024-03-04T10:00:00" "2024-03-06T12:00:00"
    ⟨63845143200000000, none⟩ ⟨63845323200000000, none⟩
    rfl rfl rfl rfl (by norm_num [usPerDay]) (by norm_num [usPerDay])
    (by norm_num [usPerDay])
